import Mathlib

/-!
Verification of the VEIA data-processing pipeline (projects/veia/process_data.py).

The pipeline reads an immutable transaction ledger and derives seven independent
visualization views.  This file gives a shallow embedding of the data model and of
every computation the claims refer to, and proves or refutes the claims.

Modelling conventions, shared by all definitions below:
- a pandas DataFrame of transactions is a `List Txn` in file order;
- `float` prices and z-scores are modelled as `ℚ` (the source only does exact
  field arithmetic on them: sums, means, division, abs, min);
- a pandas mean of an empty selection is `NaN`; we model means as `Option ℚ`
  where `none` stands for NaN;
- `DataFrame.sample(n)` raises `ValueError` when `n` exceeds the population
  size and otherwise returns `n` distinct rows chosen at random; it is modelled
  as `Except` that errors in exactly the same situation and otherwise returns
  the first `n` rows.  Every property proved about a sample depends only on the
  error condition and on the number of rows returned, never on which rows;
- pandas sorts (`value_counts`, `nlargest`) are modelled with the stable
  `List.insertionSort`: a stable sort is uniquely determined by the relation,
  so the choice of algorithm is semantically irrelevant;
- `groupby` keys are listed in order of first appearance.  pandas sorts group
  keys, which permutes the emitted rows; no claim refers to row order;
- purely cosmetic randomized fields (3D jitter positions, spherical node
  coordinates, circular ring layout coordinates) and the `metadata` /
  `date_generated` blocks are omitted: no claim mentions them;
- the auxiliary `users` table (used only for per-node region/kyc decoration)
  and the unused `items`/`edges` tables are omitted: no claim mentions them.
-/

namespace VEIA

/-- Timestamp of a transaction after parsing.  The source only ever uses the
day-of-month component (`.dt.day`) plus an opaque total order for min/max
metadata; we keep month and a time-of-day ordinal so that distinct rows can
carry distinct timestamps. -/
structure Timestamp where
  month : Nat
  day : Nat
  tod : Nat
deriving DecidableEq

/-- One row of `veia_transactions.csv` after loading and timestamp parsing
(process_data.py lines 19-26).  `is_anomaly` is derived, see `is_anomaly`. -/
structure Txn where
  transaction_id : Nat
  timestamp : Timestamp
  buyer_id : String
  seller_id : String
  category : String
  price : ℚ
  price_z : ℚ
  marketplace : String
  buyer_region : String
  seller_region : String
  anomaly_label : String
deriving DecidableEq

/-- The transaction ledger: the `transactions` DataFrame, one entry per row. -/
abbrev Ledger := List Txn

/-- Line 26: `transactions['is_anomaly'] = transactions['anomaly_label'] != 'normal'`. -/
def is_anomaly (t : Txn) : Bool := t.anomaly_label != "normal"

/-! ### Generic helpers shared by several views -/

/-- Helper for `uniqueFirst`: keeps the elements not yet seen. -/
def uniqueFirstAux {α : Type} [DecidableEq α] (seen : List α) : List α → List α
  | [] => []
  | x :: rest =>
    if x ∈ seen then uniqueFirstAux seen rest else x :: uniqueFirstAux (x :: seen) rest

/-- Model of `Series.unique()`: the distinct values in order of first appearance. -/
def uniqueFirst {α : Type} [DecidableEq α] (xs : List α) : List α := uniqueFirstAux [] xs

/-- Number of occurrences of `v` in `xs`. -/
def countOccur {α : Type} [DecidableEq α] (xs : List α) (v : α) : Nat :=
  (xs.filter (fun x => x = v)).length

/-- Model of `Series.mean()`: `NaN` (here `none`) on an empty selection,
otherwise the arithmetic mean. -/
def listMean (xs : List ℚ) : Option ℚ :=
  if xs = [] then none else some (xs.sum / (xs.length : ℚ))

/-- Model of `DataFrame.sample(n=k)` (sampling without replacement): raises
`ValueError` when the requested size exceeds the population, otherwise returns
`k` rows.  Which rows are returned is random in the source; the first `k` rows
stand in for them, and no property proved below depends on the choice. -/
def sampleDF (pop : List Txn) (k : Nat) : Except String (List Txn) :=
  if k ≤ pop.length then Except.ok (pop.take k)
  else Except.error "ValueError: a larger sample than population"

instance {ε α : Type} [DecidableEq ε] [DecidableEq α] : DecidableEq (Except ε α) := fun x y =>
  match x, y with
  | Except.ok a, Except.ok b => decidable_of_iff (a = b) (by simp)
  | Except.ok _, Except.error _ => isFalse (by simp)
  | Except.error _, Except.ok _ => isFalse (by simp)
  | Except.error e, Except.error f => decidable_of_iff (e = f) (by simp)

/-- Descending-count order used by `value_counts` and `nlargest`-style ranking. -/
def countDesc {α : Type} (a b : α × Nat) : Prop := b.2 ≤ a.2

instance {α : Type} : DecidableRel (@countDesc α) := fun a b => Nat.decLe b.2 a.2

instance {α : Type} : IsTotal (α × Nat) countDesc := ⟨fun a b => le_total b.2 a.2⟩

instance {α : Type} : IsTrans (α × Nat) countDesc := ⟨fun _ _ _ h1 h2 => le_trans h2 h1⟩

/-- Model of `Series.value_counts()`: each distinct value paired with its
frequency, sorted by descending frequency.  The source (pandas) leaves the
order of frequency ties unspecified; the stable sort used here keeps ties in
first-appearance order, and no claim below depends on the tie order. -/
def value_counts {α : Type} [DecidableEq α] (xs : List α) : List (α × Nat) :=
  List.insertionSort countDesc ((uniqueFirst xs).map (fun v => (v, countOccur xs v)))

/-! ### Python / pandas string order (needed by `Series.mode()`)

pandas sorts the modal values of a Series of Python strings ascending by code
point before `mode()[0]` picks the first one.  Mathlib has a `LinearOrder
String`, but its comparison does not reduce inside the kernel, so we embed the
code-point lexicographic order directly. -/

/-- Lexicographic strict order on code-point lists. -/
def charListLt : List Char → List Char → Bool
  | [], [] => false
  | [], _ :: _ => true
  | _ :: _, [] => false
  | c :: cs, d :: ds => c.toNat < d.toNat || (c.toNat == d.toNat && charListLt cs ds)

/-- Strict order on strings by code points — Python string comparison. -/
def strLt (a b : String) : Bool := charListLt a.data b.data

/-- Minimum of two strings in code-point order. -/
def strMin (a b : String) : String := if strLt b a then b else a

/-- Minimum of a list of strings, `none` on the empty list. -/
def listMinStr : List String → Option String
  | [] => none
  | x :: xs => some (xs.foldl strMin x)

/-- Largest frequency attained by any value of `xs` (0 for the empty list). -/
def maxCount (xs : List String) : Nat :=
  ((uniqueFirst xs).map (countOccur xs)).foldl Nat.max 0

/-- The set of modal values of `xs` (distinct values of maximal frequency). -/
def modalSet (xs : List String) : List String :=
  (uniqueFirst xs).filter (fun v => countOccur xs v == maxCount xs)

/-- Embedding of the aggregation lambda on line 90:
`lambda x: x.mode()[0] if len(x) > 0 else 'normal'`.
`Series.mode()` returns all values of maximal frequency sorted ascending (for
strings: by code point), so `mode()[0]` is the code-point-least modal value. -/
def mode_head (xs : List String) : String := (listMinStr (modalSet xs)).getD "normal"

/-- Modelled from the spec: the spec (§4.1, §9) prescribes that a frequency tie
between modal labels is resolved by first-encountered order.  This definition
follows the words of the spec and exists only to be compared with the
behaviour of `mode_head`, which embeds the source. -/
def modeFirstEncountered (xs : List String) : String :=
  ((xs.find? (fun v => countOccur xs v == maxCount xs))).getD "normal"

/-! ### View 1 — network graph (lines 34-119) -/

/-- Line 37: the 80 most frequent buyer ids. -/
def top_buyers (tl : Ledger) : List String :=
  ((value_counts (tl.map (fun t => t.buyer_id))).take 80).map Prod.fst

/-- Line 38: the 80 most frequent seller ids. -/
def top_sellers (tl : Ledger) : List String :=
  ((value_counts (tl.map (fun t => t.seller_id))).take 80).map Prod.fst

/-- Line 39: `list(set(top_buyers) | set(top_sellers))`.  A Python set has no
specified order; first-appearance order stands in for it, and only membership
in the active set matters to any claim. -/
def active_users (tl : Ledger) : List String := uniqueFirst (top_buyers tl ++ top_sellers tl)

/-- Predicate of lines 44-46: the transaction involves `u` as buyer or seller. -/
def involves (u : String) (t : Txn) : Bool := t.buyer_id == u || t.seller_id == u

/-- Lines 44-46: all transactions where the user is buyer or seller. -/
def user_txns (tl : Ledger) (u : String) : List Txn := tl.filter (involves u)

/-- Graph node (lines 66-76).  The random spherical coordinates and the
region/kyc decoration from the `users` table are omitted (cosmetic / not
referenced by any claim). -/
structure GraphNode where
  id : String
  tx_count : Nat
  anomaly_count : Nat
  total_value : ℚ
deriving DecidableEq

/-- Node metrics of one active user (lines 66-76). -/
def mkGraphNode (tl : Ledger) (u : String) : GraphNode :=
  { id := u
    tx_count := (user_txns tl u).length
    anomaly_count := ((user_txns tl u).filter is_anomaly).length
    total_value := ((user_txns tl u).map (fun t => t.price)).sum }

/-- Lines 42-76: one node per active user. -/
def node_data (tl : Ledger) : List GraphNode := (active_users tl).map (mkGraphNode tl)

/-- Lines 79-82: transactions whose buyer AND seller are both active. -/
def network_txns (tl : Ledger) : List Txn :=
  tl.filter (fun t =>
    (active_users tl).contains t.buyer_id && (active_users tl).contains t.seller_id)

/-- Group keys of the `groupby(['buyer_id', 'seller_id'])` on line 85. -/
def edge_keys (tl : Ledger) : List (String × String) :=
  uniqueFirst ((network_txns tl).map (fun t => (t.buyer_id, t.seller_id)))

/-- The member rows of one (buyer, seller) edge group. -/
def edge_group (tl : Ledger) (k : String × String) : List Txn :=
  (network_txns tl).filter (fun t => (t.buyer_id, t.seller_id) == k)

/-- Mean absolute z-score of a group (line 88), with the pandas NaN default for
an empty group collapsed to 0; edge groups are never empty. -/
def avgAbsZ (g : List Txn) : ℚ := (listMean (g.map (fun t => |t.price_z|))).getD 0

/-- Graph edge (lines 93-104). -/
structure GraphEdge where
  source : String
  target : String
  tx_count : Nat
  total_value : ℚ
  avg_price_z : ℚ
  anomaly_count : Nat
  anomaly_type : String
  intensity : ℚ
deriving DecidableEq

/-- One aggregated edge row (lines 85-104), including the
`intensity = min(mean_abs_price_z / 2, 1.0)` clamp of line 103. -/
def mkGraphEdge (tl : Ledger) (k : String × String) : GraphEdge :=
  { source := k.1
    target := k.2
    tx_count := (edge_group tl k).length
    total_value := ((edge_group tl k).map (fun t => t.price)).sum
    avg_price_z := avgAbsZ (edge_group tl k)
    anomaly_count := ((edge_group tl k).filter is_anomaly).length
    anomaly_type := mode_head ((edge_group tl k).map (fun t => t.anomaly_label))
    intensity := min (avgAbsZ (edge_group tl k) / 2) 1 }

/-- Lines 85-104: the aggregated edge list. -/
def edge_data (tl : Ledger) : List GraphEdge := (edge_keys tl).map (mkGraphEdge tl)

/-! ### View 2 — anomaly timeline (lines 124-172) -/

/-- Line 126: the anomalous transactions. -/
def anomalies (tl : Ledger) : List Txn := tl.filter is_anomaly

/-- Daily bucket of one anomaly type (lines 148-156).  `intensity` on line 153
is the daily mean absolute z-score computed on line 140; it is NOT clamped. -/
structure DailyBucket where
  day : Nat
  count : Nat
  value : ℚ
  intensity : Option ℚ
deriving DecidableEq

/-- Per-anomaly-type timeline summary (lines 143-157). -/
structure TypeBucket where
  type : String
  total_count : Nat
  avg_price : Option ℚ
  avg_z_score : Option ℚ
  daily_counts : List DailyBucket
deriving DecidableEq

/-- The rows of one anomaly type (line 134). -/
def type_group (tl : Ledger) (ty : String) : List Txn :=
  (anomalies tl).filter (fun t => t.anomaly_label == ty)

/-- The rows of one day within a type group (line 137, `groupby('day')`;
day-of-month only, collapsing months). -/
def day_group (td : List Txn) (d : Nat) : List Txn :=
  td.filter (fun t => t.timestamp.day == d)

/-- Lines 132-157: the per-type timelines, one per distinct anomaly label among
the anomalous rows. -/
def temporal_data (tl : Ledger) : List TypeBucket :=
  (uniqueFirst ((anomalies tl).map (fun t => t.anomaly_label))).map (fun ty =>
    { type := ty
      total_count := (type_group tl ty).length
      avg_price := listMean ((type_group tl ty).map (fun t => t.price))
      avg_z_score := listMean ((type_group tl ty).map (fun t => |t.price_z|))
      daily_counts :=
        (uniqueFirst ((type_group tl ty).map (fun t => t.timestamp.day))).map (fun d =>
          { day := d
            count := (day_group (type_group tl ty) d).length
            value := ((day_group (type_group tl ty) d).map (fun t => t.price)).sum
            intensity :=
              listMean ((day_group (type_group tl ty) d).map (fun t => |t.price_z|)) }) })

/-! ### View 3 — particle field (lines 177-234) -/

/-- Line 183: the high-intensity transactions, `|price_z| > 2`. -/
def high_intensity (tl : Ledger) : List Txn := tl.filter (fun t => |t.price_z| > 2)

/-- The remainder, `|price_z| <= 2` (population of the random sample, line 184). -/
def normal_pool (tl : Ledger) : List Txn := tl.filter (fun t => |t.price_z| ≤ 2)

/-- Line 184 exactly as written in the source:
`transactions[...].sample(n=min(2000, len(transactions)))` — the requested
size is capped by the length of the FULL ledger, not of the sampled pool. -/
def normal_sample (tl : Ledger) : Except String (List Txn) :=
  sampleDF (normal_pool tl) (min 2000 tl.length)

/-- Line 185: concatenation of the high-intensity rows and the random sample. -/
def particle_txns (tl : Ledger) : Except String (List Txn) :=
  (normal_sample tl).map (fun s => high_intensity tl ++ s)

/-- One particle (lines 199-210).  The random x/y jitter and the category base
offset are omitted (cosmetic); `z` is the deterministic `price_z * 3`. -/
structure Particle where
  z : ℚ
  size : ℚ
  intensity : ℚ
  is_flare : Bool
  category : String
  price : ℚ
  z_score : ℚ
  anomaly_type : String
deriving DecidableEq

/-- Particle fields of one transaction (lines 195-210), including the
`intensity = min(|price_z| / 4, 1.0)` clamp and `is_flare = |price_z| > 2`. -/
def mkParticle (t : Txn) : Particle :=
  { z := t.price_z * 3
    size := 2 + |t.price_z| * 2
    intensity := min (|t.price_z| / 4) 1
    is_flare := |t.price_z| > 2
    category := t.category
    price := t.price
    z_score := t.price_z
    anomaly_type := t.anomaly_label }

/-- Lines 179-210: particles, iterated per distinct category of the FULL
ledger (line 179), each category contributing its particle transactions. -/
def particle_data (tl : Ledger) : Except String (List Particle) :=
  (particle_txns tl).map (fun pts =>
    ((uniqueFirst (tl.map (fun t => t.category))).map (fun c =>
      (pts.filter (fun t => t.category == c)).map mkParticle)).flatten)

/-! ### View 4 — geographic flows (lines 239-289) -/

/-- Coordinate entry of the fixed region lookup table. -/
structure Coords where
  lat : Int
  lon : Int
  name : String
deriving DecidableEq

/-- Lines 241-247: the fixed region lookup table. -/
def region_coords : List (String × Coords) :=
  [("EU", ⟨50, 10, "Europe"⟩),
   ("SEA", ⟨10, 105, "Southeast Asia"⟩),
   ("EAST_ASIA", ⟨35, 120, "East Asia"⟩),
   ("OCE", ⟨-25, 135, "Oceania"⟩),
   ("LATAM", ⟨-10, -60, "Latin America"⟩)]

/-- Group keys of `groupby(['buyer_region', 'seller_region', 'marketplace'])`
(line 250). -/
def flow_keys (tl : Ledger) : List (String × String × String) :=
  uniqueFirst (tl.map (fun t => (t.buyer_region, t.seller_region, t.marketplace)))

/-- The member rows of one flow group. -/
def flow_group (tl : Ledger) (k : String × String × String) : List Txn :=
  tl.filter (fun t => (t.buyer_region, t.seller_region, t.marketplace) == k)

/-- One aggregated row of the `flows` frame (lines 250-254). -/
structure FlowRow where
  buyer_region : String
  seller_region : String
  marketplace : String
  tx_count : Nat
  total_value : ℚ
  anomaly_count : Nat
deriving DecidableEq

/-- Aggregation of one flow group (lines 250-254). -/
def mkFlowRow (tl : Ledger) (k : String × String × String) : FlowRow :=
  { buyer_region := k.1
    seller_region := k.2.1
    marketplace := k.2.2
    tx_count := (flow_group tl k).length
    total_value := ((flow_group tl k).map (fun t => t.price)).sum
    anomaly_count := ((flow_group tl k).filter is_anomaly).length }

/-- Lines 250-255: aggregate and drop self-loop groups
(`flows[flows['buyer_region'] != flows['seller_region']]`). -/
def flows (tl : Ledger) : List FlowRow :=
  ((flow_keys tl).map (mkFlowRow tl)).filter (fun r => r.buyer_region != r.seller_region)

/-- Anomaly rate of a flow row (line 268); the denominator is the group size. -/
def flow_rate (r : FlowRow) : ℚ := (r.anomaly_count : ℚ) / (r.tx_count : ℚ)

/-- One emitted flow (lines 259-270). -/
structure Flow where
  source : String
  target : String
  source_coords : Coords
  target_coords : Coords
  marketplace : String
  tx_count : Nat
  total_value : ℚ
  anomaly_count : Nat
  anomaly_rate : ℚ
  intensity : ℚ
deriving DecidableEq

/-- The flow record built from one row once both coordinate lookups succeed. -/
def mkFlow (r : FlowRow) (sc tc : Coords) : Flow :=
  { source := r.buyer_region
    target := r.seller_region
    source_coords := sc
    target_coords := tc
    marketplace := r.marketplace
    tx_count := r.tx_count
    total_value := r.total_value
    anomaly_count := r.anomaly_count
    anomaly_rate := flow_rate r
    intensity := min (flow_rate r) 1 }

/-- Lines 257-270: the emission loop.  `region_coords[row['buyer_region']]` on
line 262 (and line 263 for the seller) raises `KeyError` on an unknown region
code, which aborts the whole view; the loop otherwise emits rows in order. -/
def flow_rows_to_data : List FlowRow → Except String (List Flow)
  | [] => Except.ok []
  | r :: rs =>
    match List.lookup r.buyer_region region_coords, List.lookup r.seller_region region_coords with
    | some sc, some tc => (flow_rows_to_data rs).map (fun fs => mkFlow r sc tc :: fs)
    | _, _ => Except.error "KeyError: unknown region code"

/-- The geographic flow view (lines 257-270). -/
def flow_data (tl : Ledger) : Except String (List Flow) := flow_rows_to_data (flows tl)

/-! ### View 5 — wash trade rings (lines 294-343) -/

/-- Line 296: the transactions labeled `wash_trade_ring`. -/
def wash_trades (tl : Ledger) : List Txn :=
  tl.filter (fun t => t.anomaly_label == "wash_trade_ring")

/-- Line 297: the 20 users most frequent among wash-trade buyers and sellers
combined (`pd.concat([...buyer_id, ...seller_id]).value_counts().head(20)`). -/
def ring_users (tl : Ledger) : List String :=
  ((value_counts ((wash_trades tl).map (fun t => t.buyer_id) ++
      (wash_trades tl).map (fun t => t.seller_id))).take 20).map Prod.fst

/-- Lines 300-303: the induced transactions — both endpoints in the ring set. -/
def ring_txns (tl : Ledger) : List Txn :=
  tl.filter (fun t =>
    (ring_users tl).contains t.buyer_id && (ring_users tl).contains t.seller_id)

/-- Ring node (lines 306-318); the circular layout coordinates are cosmetic
and omitted. -/
structure RingNode where
  id : String
  ring_position : Nat
  wash_trade_count : Nat
deriving DecidableEq

/-- Lines 306-318: ring members in rank order with their personal counts. -/
def ring_nodes (tl : Ledger) : List RingNode :=
  (ring_users tl).enum.map (fun p =>
    { id := p.2
      ring_position := p.1
      wash_trade_count := ((wash_trades tl).filter (involves p.2)).length })

/-- One emitted ring edge (lines 323-329). -/
structure RingEdge where
  source : String
  target : String
  is_wash_trade : Bool
  price : ℚ
  timestamp : Timestamp
deriving DecidableEq

/-- Edge fields of one induced transaction (lines 323-329). -/
def mkRingEdge (t : Txn) : RingEdge :=
  { source := t.buyer_id
    target := t.seller_id
    is_wash_trade := t.anomaly_label == "wash_trade_ring"
    price := t.price
    timestamp := t.timestamp }

/-- Lines 320-329: the emission loop over `ring_txns`, with the redundant
re-check of line 322 kept as in the source. -/
def ring_edges (tl : Ledger) : List RingEdge :=
  ((ring_txns tl).filter (fun t =>
    (ring_users tl).contains t.buyer_id && (ring_users tl).contains t.seller_id)).map
    mkRingEdge

/-- Line 333: `ring_edges[:200]` — the exported edge list. -/
def ring_export_edges (tl : Ledger) : List RingEdge := (ring_edges tl).take 200

/-! ### View 6 — marketplace clusters (lines 348-398) -/

/-- Lines 350-354: the fixed marketplace set (the hard-coded 3D centers are
cosmetic and omitted). -/
def marketplace_centers : List String := ["Prime", "Shadow", "Arcade"]

/-- The transactions of one marketplace (lines 359, 375). -/
def market_group (tl : Ledger) (m : String) : List Txn :=
  tl.filter (fun t => t.marketplace == m)

/-- Anomaly indicator used by boolean means (`is_anomaly` averaged). -/
def anomaly_indicator (t : Txn) : ℚ := if is_anomaly t then 1 else 0

/-- Mean of `is_anomaly` over one marketplace (line 384 and line 429):
`NaN` — here `none` — when the marketplace has no transactions. -/
def market_anomaly_rate (tl : Ledger) (m : String) : Option ℚ :=
  listMean ((market_group tl m).map anomaly_indicator)

/-- One sampled cluster point (lines 365-373); jitter coordinates omitted. -/
structure MarketPoint where
  is_anomaly : Bool
  price : ℚ
  category : String
  anomaly_type : String
deriving DecidableEq

/-- One marketplace cluster entry (lines 376-386) with its rollup stats. -/
structure MarketplaceEntry where
  name : String
  points : List MarketPoint
  total_transactions : Nat
  total_value : ℚ
  anomaly_count : Nat
  anomaly_rate : Option ℚ
deriving DecidableEq

/-- Lines 358-386 for a single marketplace: sample
`min(1000, len(subset))` points, stats over the FULL subset. -/
def marketplace_entry (tl : Ledger) (m : String) : Except String MarketplaceEntry :=
  (sampleDF (market_group tl m) (min 1000 (market_group tl m).length)).map (fun pts =>
    { name := m
      points := pts.map (fun t =>
        { is_anomaly := is_anomaly t
          price := t.price
          category := t.category
          anomaly_type := t.anomaly_label })
      total_transactions := (market_group tl m).length
      total_value := ((market_group tl m).map (fun t => t.price)).sum
      anomaly_count := ((market_group tl m).filter is_anomaly).length
      anomaly_rate := market_anomaly_rate tl m })

/-- Sequencing of the per-marketplace loop body over a list of names. -/
def marketplace_entries (tl : Ledger) : List String → Except String (List MarketplaceEntry)
  | [] => Except.ok []
  | m :: ms =>
    match marketplace_entry tl m with
    | Except.ok e => (marketplace_entries tl ms).map (fun es => e :: es)
    | Except.error err => Except.error err

/-- Lines 357-386: the marketplace cluster view over the fixed set. -/
def marketplace_data (tl : Ledger) : Except String (List MarketplaceEntry) :=
  marketplace_entries tl marketplace_centers

/-! ### View 7 — stats summary (lines 403-442) -/

/-- Per-anomaly-type breakdown entry (lines 416-424). -/
structure AnomalyTypeStat where
  type : String
  count : Nat
  avg_price : Option ℚ
  avg_z_score : Option ℚ
deriving DecidableEq

/-- The rows of one anomaly label in the full ledger (lines 419-421). -/
def label_group (tl : Ledger) (ty : String) : List Txn :=
  tl.filter (fun t => t.anomaly_label == ty)

/-- Lines 416-424: breakdown over the distinct labels of the anomalous rows. -/
def anomaly_breakdown (tl : Ledger) : List AnomalyTypeStat :=
  (uniqueFirst ((anomalies tl).map (fun t => t.anomaly_label))).map (fun ty =>
    { type := ty
      count := (label_group tl ty).length
      avg_price := listMean ((label_group tl ty).map (fun t => t.price))
      avg_z_score := listMean ((label_group tl ty).map (fun t => |t.price_z|)) })

/-- Per-marketplace stats entry (lines 425-433). -/
structure MarketStat where
  name : String
  transactions : Nat
  anomaly_rate : Option ℚ
  total_value : ℚ
deriving DecidableEq

/-- Lines 425-433: stats over the distinct marketplaces OBSERVED in the ledger
(unlike view 6, which iterates the fixed set). -/
def stats_marketplaces (tl : Ledger) : List MarketStat :=
  (uniqueFirst (tl.map (fun t => t.marketplace))).map (fun m =>
    { name := m
      transactions := (market_group tl m).length
      anomaly_rate := market_anomaly_rate tl m
      total_value := ((market_group tl m).map (fun t => t.price)).sum })

/-- Per-category stats value (lines 435-439). -/
structure CatStat where
  total : Nat
  anomalies : Nat
  anomaly_rate : Option ℚ
deriving DecidableEq

/-- The transactions of one category (lines 436-438). -/
def cat_group (tl : Ledger) (c : String) : List Txn :=
  tl.filter (fun t => t.category == c)

/-- Mean of `is_anomaly` over one category (line 438). -/
def cat_anomaly_rate (tl : Ledger) (c : String) : Option ℚ :=
  listMean ((cat_group tl c).map anomaly_indicator)

/-- Lines 434-441: the `categories` section of the stats export, keyed by the
distinct categories observed in the ledger. -/
def stats_categories (tl : Ledger) : List (String × CatStat) :=
  (uniqueFirst (tl.map (fun t => t.category))).map (fun c =>
    (c, { total := (cat_group tl c).length
          anomalies := ((cat_group tl c).filter is_anomaly).length
          anomaly_rate := cat_anomaly_rate tl c }))

/-! ### View 8 — dashboard exports (lines 452-487) -/

/-- Line 455: `transactions.sample(n=min(500, len(transactions)))`. -/
def sample_transactions (tl : Ledger) : Except String (List Txn) :=
  sampleDF tl (min 500 tl.length)

/-- Descending order by absolute z-score (the `nlargest(100, 'price_z_abs')`
ranking of line 470). -/
def absZDesc (a b : Txn) : Prop := |b.price_z| ≤ |a.price_z|

instance : DecidableRel absZDesc := fun a b =>
  inferInstanceAs (Decidable (|b.price_z| ≤ |a.price_z|))

instance : IsTotal Txn absZDesc := ⟨fun a b => le_total |b.price_z| |a.price_z|⟩

instance : IsTrans Txn absZDesc := ⟨fun _ _ _ h1 h2 => le_trans h2 h1⟩

/-- The anomalous rows stably sorted by descending `|price_z|`.  pandas
`nlargest` with the default `keep='first'` ranks descending and resolves ties
by original position, which is exactly a stable descending sort. -/
def sorted_anomalies (tl : Ledger) : List Txn :=
  List.insertionSort absZDesc (anomalies tl)

/-- Lines 469-470: `anomalies.nlargest(100, 'price_z_abs')`. -/
def top_anomalies (tl : Ledger) : List Txn := (sorted_anomalies tl).take 100

/-- Line 483: `categories_export = stats_export['categories']` — the categories
dashboard export aliases the categories section of the stats summary. -/
def categories_export (tl : Ledger) : List (String × CatStat) := stats_categories tl

/-! ### The pipeline as a sequence of views (whole script)

The script is straight-line code with no exception handling: the views are
computed and written one after another, and an uncaught exception in one view
(particle sampling, line 184, or region lookup, line 262) terminates the
process, so views after the failing one are never produced.  `run_pipeline`
returns the names of the views produced, in script order.  View computations
whose embeddings are total Lean functions cannot fail and are recorded as
always succeeding; the stats/dashboard component includes the dashboard
sampler of line 455. -/

/-- Results of the seven view computations, in script order. -/
def view_results (tl : Ledger) : List (String × Except String Unit) :=
  [("network", Except.ok ()),
   ("timeline", Except.ok ()),
   ("particles", (particle_data tl).map (fun _ => ())),
   ("geo_flows", (flow_data tl).map (fun _ => ())),
   ("wash_ring", Except.ok ()),
   ("marketplaces", (marketplace_data tl).map (fun _ => ())),
   ("stats", (sample_transactions tl).map (fun _ => ()))]

/-- Views produced before the first failure (process aborts at the failure). -/
def produced_views : List (String × Except String Unit) → List String
  | [] => []
  | (n, Except.ok _) :: rest => n :: produced_views rest
  | (_, Except.error _) :: _ => []

/-- The names of the views the script run actually produces. -/
def run_pipeline (tl : Ledger) : List String := produced_views (view_results tl)

/-! ### Concrete ledgers used as failing inputs, counterexamples and witnesses -/

/-- Builder for a concrete transaction row. -/
def mkTxn (id : Nat) (d : Nat) (b s c : String) (p pz : ℚ) (mk br sr lab : String) : Txn :=
  { transaction_id := id
    timestamp := ⟨1, d, id⟩
    buyer_id := b
    seller_id := s
    category := c
    price := p
    price_z := pz
    marketplace := mk
    buyer_region := br
    seller_region := sr
    anomaly_label := lab }

/-- Ledger exhibiting the particle-sampler size bug: 3 rows, one of them
high-intensity, so the requested sample size `min(2000, 3) = 3` exceeds the
2-row remainder and `DataFrame.sample` raises. -/
def c1_ledger : Ledger :=
  [mkTxn 1 1 "b1" "s1" "gear" 10 3 "Prime" "EU" "SEA" "price_spike",
   mkTxn 2 1 "b2" "s2" "gear" 5 0 "Prime" "EU" "SEA" "normal",
   mkTxn 3 2 "b3" "s3" "gear" 6 0 "Prime" "EU" "SEA" "normal"]

/-- Ledger with a single (buyer, seller) edge group holding a frequency tie
between the labels `wash_trade_ring` (first encountered) and `bot_activity`. -/
def c2_ledger : Ledger :=
  [mkTxn 1 1 "b1" "s1" "gear" 10 0 "Prime" "EU" "SEA" "wash_trade_ring",
   mkTxn 2 1 "b1" "s1" "gear" 11 0 "Prime" "EU" "SEA" "bot_activity"]

/-- The anomaly labels of the single edge group of `c2_ledger`. -/
def c2_labels : List String :=
  (edge_group c2_ledger ("b1", "s1")).map (fun t => t.anomaly_label)

/-- The single emitted edge of `c2_ledger`. -/
def c2_e : GraphEdge := mkGraphEdge c2_ledger ("b1", "s1")

/-- Ledger on which the geographic flow view fails (unknown region `MARS`)
while the particle view succeeds: used to refute view-failure isolation. -/
def c3_ledger : Ledger :=
  [mkTxn 1 1 "b1" "s1" "gear" 10 0 "Prime" "MARS" "EU" "normal",
   mkTxn 2 1 "b2" "s2" "gear" 11 1 "Prime" "EU" "SEA" "normal"]

/-- Ledger whose only transaction is on `Shadow`, leaving the fixed
marketplaces `Prime` and `Arcade` with empty groups. -/
def c4_ledger : Ledger :=
  [mkTxn 1 1 "b1" "s1" "gear" 10 0 "Shadow" "EU" "SEA" "normal"]

/-- Ledger with one anomaly, giving every observed-key grouping at least one
member: witness input for the empty-group policy theorem. -/
def c4w_ledger : Ledger :=
  [mkTxn 1 1 "b1" "s1" "gear" 10 1 "Prime" "EU" "SEA" "price_spike",
   mkTxn 2 2 "b2" "s2" "art" 20 0 "Shadow" "EU" "SEA" "normal"]

/-- Ledger with a cross-region flow whose buyer region `ATLANTIS` is not in
the region table. -/
def c5_ledger : Ledger :=
  [mkTxn 1 1 "b1" "s1" "gear" 10 0 "Prime" "ATLANTIS" "EU" "normal"]

/-- Ledger with one wash trade and one opposite-direction normal trade between
the same two users. -/
def c6_ledger : Ledger :=
  [mkTxn 1 1 "u1" "u2" "gear" 10 2 "Prime" "EU" "SEA" "wash_trade_ring",
   mkTxn 2 1 "u2" "u1" "gear" 10 2 "Prime" "SEA" "EU" "normal"]

/-- Ledger with two anomalies (fewer than 100). -/
def c7_ledger : Ledger :=
  [mkTxn 1 1 "b1" "s1" "gear" 10 1 "Prime" "EU" "SEA" "price_spike",
   mkTxn 2 1 "b2" "s2" "gear" 12 5 "Prime" "EU" "SEA" "price_spike",
   mkTxn 3 2 "b3" "s3" "gear" 9 0 "Prime" "EU" "SEA" "normal"]

/-- Small ledger with a repeated buyer: witness input for the graph view. -/
def c8_ledger : Ledger :=
  [mkTxn 1 1 "b1" "s1" "gear" 10 1 "Prime" "EU" "SEA" "price_spike",
   mkTxn 2 1 "b1" "s2" "gear" 4 0 "Prime" "EU" "SEA" "normal"]

/-- Ledger whose only transaction is on `Prime`, leaving `Shadow` and
`Arcade` with empty groups and hence undefined (NaN) anomaly rates. -/
def c9_ledger : Ledger :=
  [mkTxn 1 1 "b1" "s1" "gear" 10 0 "Prime" "EU" "SEA" "normal"]

/-- Ledger with one cross-region flow: witness input for the bounds theorem. -/
def c9w_ledger : Ledger :=
  [mkTxn 1 1 "b1" "s1" "gear" 10 1 "Prime" "EU" "SEA" "price_spike"]

/-! ## Helper lemmas -/

theorem mem_uniqueFirstAux {α : Type} [DecidableEq α] (v : α) (xs : List α) :
    ∀ seen : List α, v ∈ uniqueFirstAux seen xs ↔ (v ∈ xs ∧ v ∉ seen) := by
  induction xs with
  | nil => intro seen; simp [uniqueFirstAux]
  | cons x rest ih =>
    intro seen
    simp only [uniqueFirstAux]
    by_cases hx : x ∈ seen
    · rw [if_pos hx, ih]
      simp only [List.mem_cons]
      constructor
      · rintro ⟨h1, h2⟩; exact ⟨Or.inr h1, h2⟩
      · rintro ⟨h1 | h1, h2⟩
        · subst h1; exact absurd hx h2
        · exact ⟨h1, h2⟩
    · rw [if_neg hx]
      simp only [List.mem_cons, ih, List.mem_cons]
      by_cases hvx : v = x
      · subst hvx; simp [hx]
      · simp [hvx]

theorem mem_uniqueFirst {α : Type} [DecidableEq α] (v : α) (xs : List α) :
    v ∈ uniqueFirst xs ↔ v ∈ xs := by
  rw [uniqueFirst, mem_uniqueFirstAux]
  simp

theorem countOccur_pos {α : Type} [DecidableEq α] (xs : List α) (v : α) (h : v ∈ xs) :
    0 < countOccur xs v := by
  rw [countOccur, List.length_pos]
  intro hnil
  have : v ∈ xs.filter (fun x => x = v) := by
    rw [List.mem_filter]
    exact ⟨h, by simp⟩
  rw [hnil] at this
  exact absurd this (List.not_mem_nil v)

theorem le_foldl_max (l : List Nat) (a : Nat) : a ≤ l.foldl Nat.max a := by
  induction l generalizing a with
  | nil => exact le_refl a
  | cons x xs ih =>
    calc a ≤ Nat.max a x := Nat.le_max_left a x
    _ ≤ xs.foldl Nat.max (Nat.max a x) := ih (Nat.max a x)

theorem mem_le_foldl_max (l : List Nat) (a : Nat) (b : Nat) (hb : b ∈ l) :
    b ≤ l.foldl Nat.max a := by
  induction l generalizing a with
  | nil => exact absurd hb (List.not_mem_nil b)
  | cons x xs ih =>
    rcases List.mem_cons.mp hb with h | h
    · subst h
      calc b ≤ Nat.max a b := Nat.le_max_right a b
      _ ≤ xs.foldl Nat.max (Nat.max a b) := le_foldl_max xs (Nat.max a b)
    · exact ih (Nat.max a x) h

theorem foldl_max_mem (l : List Nat) (a : Nat) :
    l.foldl Nat.max a = a ∨ l.foldl Nat.max a ∈ l := by
  induction l generalizing a with
  | nil => exact Or.inl rfl
  | cons x xs ih =>
    rcases ih (Nat.max a x) with h | h
    · rw [List.foldl_cons, h]
      have hmc : Nat.max a x = a ∨ Nat.max a x = x := by
        by_cases hax : a ≤ x
        · exact Or.inr (Nat.max_eq_right hax)
        · exact Or.inl (Nat.max_eq_left (Nat.le_of_not_le hax))
      rcases hmc with hm | hm
      · exact Or.inl hm
      · exact Or.inr (by rw [hm]; exact List.mem_cons_self x xs)
    · exact Or.inr (List.mem_cons_of_mem x h)

theorem countOccur_le_maxCount (xs : List String) (v : String) (h : v ∈ xs) :
    countOccur xs v ≤ maxCount xs := by
  apply mem_le_foldl_max
  exact List.mem_map_of_mem (countOccur xs) ((mem_uniqueFirst v xs).mpr h)

theorem maxCount_attained (xs : List String) (h : xs ≠ []) :
    ∃ v ∈ uniqueFirst xs, countOccur xs v = maxCount xs := by
  rcases foldl_max_mem ((uniqueFirst xs).map (countOccur xs)) 0 with h0 | hm
  · exfalso
    rcases List.exists_mem_of_ne_nil xs h with ⟨x, hx⟩
    have h1 : 0 < countOccur xs x := countOccur_pos xs x hx
    have h2 : countOccur xs x ≤ maxCount xs := countOccur_le_maxCount xs x hx
    rw [maxCount] at *
    omega
  · rcases List.mem_map.mp hm with ⟨v, hv, hve⟩
    exact ⟨v, hv, hve⟩

theorem listMean_eq_none_iff (xs : List ℚ) : listMean xs = none ↔ xs = [] := by
  rw [listMean]
  split
  · simp [*]
  · simp [*]

theorem listMean_isSome (xs : List ℚ) (h : xs ≠ []) : (listMean xs).isSome = true := by
  rw [listMean, if_neg h]
  rfl

theorem listMean_nonneg (xs : List ℚ) (x : ℚ) (h0 : ∀ y ∈ xs, 0 ≤ y)
    (h : listMean xs = some x) : 0 ≤ x := by
  rw [listMean] at h
  split at h
  · exact absurd h (by simp)
  · have hx : x = xs.sum / (xs.length : ℚ) := by
      injection h with h2
      exact h2.symm
    rw [hx]
    exact div_nonneg (List.sum_nonneg h0) (Nat.cast_nonneg xs.length)

theorem listMean_le_one (xs : List ℚ) (x : ℚ) (h1 : ∀ y ∈ xs, y ≤ 1)
    (h : listMean xs = some x) : x ≤ 1 := by
  rw [listMean] at h
  split at h
  · exact absurd h (by simp)
  · rename_i hne
    have hx : x = xs.sum / (xs.length : ℚ) := by
      injection h with h2
      exact h2.symm
    have hlen : 0 < (xs.length : ℚ) := by
      have : 0 < xs.length := List.length_pos.mpr hne
      exact_mod_cast this
    rw [hx, div_le_one hlen]
    have := List.sum_le_card_nsmul xs 1 h1
    simpa using this

theorem pairwise_take_drop {α : Type} {R : α → α → Prop} {l : List α} (h : l.Pairwise R)
    (n : Nat) : ∀ a ∈ l.take n, ∀ b ∈ l.drop n, R a b := by
  have h2 : (l.take n ++ l.drop n).Pairwise R := by
    rw [List.take_append_drop]
    exact h
  exact (List.pairwise_append.mp h2).2.2

/-! ### Lemmas on the code-point order and on `mode_head` -/

theorem charListLt_irrefl (l : List Char) : charListLt l l = false := by
  induction l with
  | nil => rfl
  | cons c cs ih => simp [charListLt, ih]

theorem charListLt_trans {a b c : List Char} (h1 : charListLt a b = true)
    (h2 : charListLt b c = true) : charListLt a c = true := by
  induction a generalizing b c with
  | nil =>
    cases b with
    | nil => simp [charListLt] at h1
    | cons y ys =>
      cases c with
      | nil => simp [charListLt] at h2
      | cons z zs => simp [charListLt]
  | cons x xs ih =>
    cases b with
    | nil => simp [charListLt] at h1
    | cons y ys =>
      cases c with
      | nil => simp [charListLt] at h2
      | cons z zs =>
        simp only [charListLt, Bool.or_eq_true, Bool.and_eq_true, beq_iff_eq,
          decide_eq_true_eq] at h1 h2 ⊢
        rcases h1 with h1 | ⟨h1e, h1r⟩
        · rcases h2 with h2 | ⟨h2e, h2r⟩
          · exact Or.inl (Nat.lt_trans h1 h2)
          · exact Or.inl (by rw [← h2e]; exact h1)
        · rcases h2 with h2 | ⟨h2e, h2r⟩
          · exact Or.inl (by rw [h1e]; exact h2)
          · exact Or.inr ⟨h1e.trans h2e, ih h1r h2r⟩

theorem charListLt_total {a b : List Char} (h1 : charListLt a b = false)
    (h2 : charListLt b a = false) : a = b := by
  induction a generalizing b with
  | nil =>
    cases b with
    | nil => rfl
    | cons y ys => simp [charListLt] at h1
  | cons x xs ih =>
    cases b with
    | nil => simp [charListLt] at h2
    | cons y ys =>
      simp only [charListLt, Bool.or_eq_false_iff, Bool.and_eq_false_iff,
        decide_eq_false_iff_not, beq_eq_false_iff_ne, ne_eq] at h1 h2
      have hxy : x.toNat = y.toNat := Nat.le_antisymm
        (Nat.le_of_not_lt h2.1) (Nat.le_of_not_lt h1.1)
      have hcc : x = y := Char.ext (UInt32.ext (by simpa [Char.toNat] using hxy))
      have hr1 : charListLt xs ys = false := by
        rcases h1.2 with h | h
        · exact absurd hxy h
        · exact h
      have hr2 : charListLt ys xs = false := by
        rcases h2.2 with h | h
        · exact absurd hxy.symm h
        · exact h
      rw [hcc, ih hr1 hr2]

theorem strLt_irrefl (s : String) : strLt s s = false := charListLt_irrefl s.data

theorem strLt_trans {a b c : String} (h1 : strLt a b = true) (h2 : strLt b c = true) :
    strLt a c = true := charListLt_trans h1 h2

theorem strLt_total {a b : String} (h1 : strLt a b = false) (h2 : strLt b a = false) :
    a = b := by
  cases a
  cases b
  exact congrArg String.mk (charListLt_total h1 h2)

theorem strLt_asymm {a b : String} (h : strLt a b = true) : strLt b a = false := by
  by_contra hc
  have h2 : strLt b a = true := by
    cases hv : strLt b a
    · exact absurd hv hc
    · rfl
  have := strLt_trans h h2
  rw [strLt_irrefl a] at this
  cases this

theorem strLt_left_strMin (x y : String) : strLt x (strMin x y) = false := by
  rw [strMin]
  split
  · rename_i h
    exact strLt_asymm h
  · exact strLt_irrefl x

theorem strLt_right_strMin (x y : String) : strLt y (strMin x y) = false := by
  rw [strMin]
  split
  · exact strLt_irrefl y
  · rename_i h
    cases hv : strLt y x
    · rfl
    · exact absurd hv h

theorem strMin_mem (x y : String) : strMin x y = x ∨ strMin x y = y := by
  rw [strMin]
  split
  · exact Or.inr rfl
  · exact Or.inl rfl

theorem foldl_strMin_mem (xs : List String) (x : String) :
    xs.foldl strMin x = x ∨ xs.foldl strMin x ∈ xs := by
  induction xs generalizing x with
  | nil => exact Or.inl rfl
  | cons y ys ih =>
    rw [List.foldl_cons]
    rcases ih (strMin x y) with h | h
    · rw [h]
      rcases strMin_mem x y with hm | hm
      · exact Or.inl hm
      · exact Or.inr (by rw [hm]; exact List.mem_cons_self y ys)
    · exact Or.inr (List.mem_cons_of_mem y h)

theorem foldl_strMin_min (xs : List String) (x : String) :
    ∀ b : String, (b = x ∨ b ∈ xs) → strLt b (xs.foldl strMin x) = false := by
  induction xs generalizing x with
  | nil =>
    intro b hb
    rcases hb with hb | hb
    · rw [hb]; exact strLt_irrefl x
    · exact absurd hb (List.not_mem_nil b)
  | cons y ys ih =>
    intro b hb
    rw [List.foldl_cons]
    have hmF : strLt (strMin x y) (ys.foldl strMin (strMin x y)) = false :=
      ih (strMin x y) (strMin x y) (Or.inl rfl)
    have key : strLt b (strMin x y) = false → strLt b (ys.foldl strMin (strMin x y)) = false := by
      intro hbm
      cases hv : strLt b (ys.foldl strMin (strMin x y))
      · rfl
      · exfalso
        cases hmb : strLt (strMin x y) b
        · have heq : strMin x y = b := strLt_total hmb hbm
          rw [← heq] at hv
          rw [hv] at hmF
          cases hmF
        · have := strLt_trans hmb hv
          rw [hmF] at this
          cases this
    rcases hb with hb | hb
    · exact key (by rw [hb]; exact strLt_left_strMin x y)
    · rcases List.mem_cons.mp hb with hb | hb
      · exact key (by rw [hb]; exact strLt_right_strMin x y)
      · exact ih (strMin x y) b (Or.inr hb)


/-- Full characterization of the pandas `mode()[0]` embedding on a non-empty
series: it is a member, it attains the maximal frequency, and it precedes (in
code-point order) every other value of maximal frequency. -/
theorem mode_head_spec (xs : List String) (h : xs ≠ []) :
    mode_head xs ∈ xs ∧ countOccur xs (mode_head xs) = maxCount xs ∧
      ∀ v ∈ xs, countOccur xs v = maxCount xs → strLt v (mode_head xs) = false := by
  have hms : modalSet xs ≠ [] := by
    rcases maxCount_attained xs h with ⟨v, hv, hve⟩
    apply List.ne_nil_of_mem
    rw [modalSet, List.mem_filter]
    exact ⟨hv, by simp [hve]⟩
  cases hm : modalSet xs with
  | nil => exact absurd hm hms
  | cons m ms =>
    have hmode : mode_head xs = ms.foldl strMin m := by
      simp only [mode_head, hm, listMinStr, Option.getD_some]
    have hmem0 : mode_head xs ∈ modalSet xs := by
      rw [hmode, hm]
      rcases foldl_strMin_mem ms m with h2 | h2
      · rw [h2]; exact List.mem_cons_self m ms
      · exact List.mem_cons_of_mem m h2
    rw [modalSet] at hmem0
    have hmem1 := List.mem_filter.mp hmem0
    refine ⟨(mem_uniqueFirst _ xs).mp hmem1.1, by simpa using hmem1.2, ?_⟩
    intro v hv hvc
    have hvm : v ∈ modalSet xs := by
      rw [modalSet, List.mem_filter]
      exact ⟨(mem_uniqueFirst v xs).mpr hv, by simp [hvc]⟩
    rw [hm] at hvm
    rw [hmode]
    rcases List.mem_cons.mp hvm with h2 | h2
    · exact foldl_strMin_min ms m v (Or.inl h2)
    · exact foldl_strMin_min ms m v (Or.inr h2)

/-- A group keyed by an observed value is non-empty. -/
theorem group_ne_nil {α : Type} [DecidableEq α] [BEq α] [LawfulBEq α] (l : List Txn)
    (f : Txn → α) (k : α) (h : k ∈ uniqueFirst (l.map f)) :
    l.filter (fun t => f t == k) ≠ [] := by
  rcases List.mem_map.mp ((mem_uniqueFirst k (l.map f)).mp h) with ⟨t, ht, hte⟩
  exact List.ne_nil_of_mem (List.mem_filter.mpr ⟨ht, by simp [hte]⟩)

theorem sampleDF_ok (pop : List Txn) (k : Nat) (h : k ≤ pop.length) :
    sampleDF pop k = Except.ok (pop.take k) := by
  rw [sampleDF, if_pos h]

theorem avgAbsZ_nonneg (g : List Txn) : 0 ≤ avgAbsZ g := by
  rw [avgAbsZ]
  cases hm : listMean (g.map (fun t => |t.price_z|)) with
  | none => simp
  | some x =>
    simp only [Option.getD_some]
    refine listMean_nonneg _ x ?_ hm
    intro y hy
    rcases List.mem_map.mp hy with ⟨t, _, ht⟩
    rw [← ht]
    exact abs_nonneg t.price_z

theorem anomaly_indicator_bounds (t : Txn) :
    0 ≤ anomaly_indicator t ∧ anomaly_indicator t ≤ 1 := by
  rw [anomaly_indicator]
  split <;> norm_num

theorem min_one_bounds (x : ℚ) (hx : 0 ≤ x) : 0 ≤ min x 1 ∧ min x 1 ≤ 1 :=
  ⟨le_min hx zero_le_one, min_le_right x 1⟩

/-- Means of 0/1 indicator lists land in the unit interval. -/
theorem indicator_mean_bounds (g : List Txn) (x : ℚ)
    (h : listMean (g.map anomaly_indicator) = some x) : 0 ≤ x ∧ x ≤ 1 := by
  constructor
  · refine listMean_nonneg _ x ?_ h
    intro y hy
    rcases List.mem_map.mp hy with ⟨t, _, ht⟩
    rw [← ht]
    exact (anomaly_indicator_bounds t).1
  · refine listMean_le_one _ x ?_ h
    intro y hy
    rcases List.mem_map.mp hy with ⟨t, _, ht⟩
    rw [← ht]
    exact (anomaly_indicator_bounds t).2

/-- The per-marketplace loop body never fails and carries the full-population
stats of its marketplace. -/
theorem marketplace_entry_ok (tl : Ledger) (m : String) :
    ∃ e, marketplace_entry tl m = Except.ok e ∧ e.name = m ∧
      e.anomaly_rate = market_anomaly_rate tl m ∧
      e.total_transactions = (market_group tl m).length := by
  rw [marketplace_entry, sampleDF_ok _ _ (min_le_right 1000 (market_group tl m).length)]
  exact ⟨_, rfl, rfl, rfl, rfl⟩

theorem marketplace_entries_ok (tl : Ledger) (ms : List String) :
    ∃ es, marketplace_entries tl ms = Except.ok es ∧
      ∀ e ∈ es, ∃ m ∈ ms, e.name = m ∧ e.anomaly_rate = market_anomaly_rate tl m ∧
        e.total_transactions = (market_group tl m).length := by
  induction ms with
  | nil => exact ⟨[], rfl, by simp⟩
  | cons m ms ih =>
    rcases marketplace_entry_ok tl m with ⟨e, he, hen, her, het⟩
    rcases ih with ⟨es, hes, hmem⟩
    refine ⟨e :: es, ?_, ?_⟩
    · rw [marketplace_entries, he, hes]
      rfl
    · intro x hx
      rcases List.mem_cons.mp hx with hx | hx
      · exact ⟨m, List.mem_cons_self m ms, by rw [hx]; exact ⟨hen, her, het⟩⟩
      · rcases hmem x hx with ⟨m2, hm2, h2⟩
        exact ⟨m2, List.mem_cons_of_mem m hm2, h2⟩

/-- The flow emission loop succeeds exactly when every row passes both region
lookups. -/
theorem flow_rows_to_data_isOk (rows : List FlowRow) :
    (flow_rows_to_data rows).isOk = true ↔
      ∀ r ∈ rows, (List.lookup r.buyer_region region_coords).isSome = true ∧
        (List.lookup r.seller_region region_coords).isSome = true := by
  induction rows with
  | nil => simp [flow_rows_to_data, Except.isOk, Except.toBool]
  | cons r rs ih =>
    rw [flow_rows_to_data]
    cases hb : List.lookup r.buyer_region region_coords with
    | none =>
      cases hs : List.lookup r.seller_region region_coords with
      | none =>
        constructor
        · intro hc
          simp [Except.isOk, Except.toBool] at hc
        · intro hall
          have := (hall r (List.mem_cons_self r rs)).1
          rw [hb] at this
          simp at this
      | some tc =>
        constructor
        · intro hc
          simp [Except.isOk, Except.toBool] at hc
        · intro hall
          have := (hall r (List.mem_cons_self r rs)).1
          rw [hb] at this
          simp at this
    | some sc =>
      cases hs : List.lookup r.seller_region region_coords with
      | none =>
        constructor
        · intro hc
          simp [Except.isOk, Except.toBool] at hc
        · intro hall
          have := (hall r (List.mem_cons_self r rs)).2
          rw [hs] at this
          simp at this
      | some tc =>
        cases hrec : flow_rows_to_data rs with
        | error e =>
          rw [hrec] at ih
          constructor
          · intro hc
            simp [Except.isOk, Except.toBool, Except.map] at hc
          · intro hall
            have h2 : ∀ x ∈ rs, (List.lookup x.buyer_region region_coords).isSome = true ∧
                (List.lookup x.seller_region region_coords).isSome = true := by
              intro x hx
              exact hall x (List.mem_cons_of_mem r hx)
            have := ih.mpr h2
            simp [Except.isOk, Except.toBool] at this
        | ok gs =>
          rw [hrec] at ih
          constructor
          · intro _
            intro x hx
            rcases List.mem_cons.mp hx with hx | hx
            · rw [hx, hb, hs]
              simp
            · exact (ih.mp (by simp [Except.isOk, Except.toBool])) x hx
          · intro _
            simp [Except.isOk, Except.toBool, Except.map]

/-- Every emitted flow of a successful run comes from a row whose two lookups
succeeded, via `mkFlow`. -/
theorem flow_rows_to_data_ok_mem (rows : List FlowRow) (fs : List Flow)
    (h : flow_rows_to_data rows = Except.ok fs) :
    ∀ f ∈ fs, ∃ r ∈ rows, ∃ sc tc,
      List.lookup r.buyer_region region_coords = some sc ∧
      List.lookup r.seller_region region_coords = some tc ∧ f = mkFlow r sc tc := by
  induction rows generalizing fs with
  | nil =>
    rw [flow_rows_to_data] at h
    injection h with h2
    rw [← h2]
    intro f hf
    exact absurd hf (List.not_mem_nil f)
  | cons r rs ih =>
    rw [flow_rows_to_data] at h
    cases hb : List.lookup r.buyer_region region_coords with
    | none =>
      rw [hb] at h
      cases hs : List.lookup r.seller_region region_coords <;> rw [hs] at h <;>
        exact absurd h (by simp)
    | some sc =>
      rw [hb] at h
      cases hs : List.lookup r.seller_region region_coords with
      | none =>
        rw [hs] at h
        exact absurd h (by simp)
      | some tc =>
        rw [hs] at h
        cases hrec : flow_rows_to_data rs with
        | error e =>
          rw [hrec] at h
          exact absurd h (by simp [Except.map])
        | ok gs =>
          rw [hrec] at h
          simp only [Except.map] at h
          injection h with h2
          intro f hf
          rw [← h2] at hf
          rcases List.mem_cons.mp hf with hf | hf
          · exact ⟨r, List.mem_cons_self r rs, sc, tc, hb, hs, hf⟩
          · rcases ih gs hrec f hf with ⟨r2, hr2, sc2, tc2, ha, hbb, hc⟩
            exact ⟨r2, List.mem_cons_of_mem r hr2, sc2, tc2, ha, hbb, hc⟩

/-- Rows of the flows frame come from observed keys. -/
theorem mem_flows_elim (tl : Ledger) (r : FlowRow) (hr : r ∈ flows tl) :
    ∃ k ∈ flow_keys tl, r = mkFlowRow tl k := by
  rw [flows] at hr
  rcases List.mem_map.mp (List.mem_filter.mp hr).1 with ⟨k, hk, hke⟩
  exact ⟨k, hk, hke.symm⟩

theorem flow_row_counts (tl : Ledger) (r : FlowRow) (hr : r ∈ flows tl) :
    0 < r.tx_count ∧ r.anomaly_count ≤ r.tx_count := by
  rcases mem_flows_elim tl r hr with ⟨k, hk, hke⟩
  subst hke
  constructor
  · rw [mkFlowRow]
    apply List.length_pos.mpr
    exact group_ne_nil tl (fun t => (t.buyer_region, t.seller_region, t.marketplace)) k hk
  · exact List.length_filter_le is_anomaly (flow_group tl k)

theorem flow_rate_bounds (tl : Ledger) (r : FlowRow) (hr : r ∈ flows tl) :
    0 ≤ flow_rate r ∧ flow_rate r ≤ 1 := by
  rcases flow_row_counts tl r hr with ⟨hpos, hle⟩
  constructor
  · exact div_nonneg (Nat.cast_nonneg r.anomaly_count) (Nat.cast_nonneg r.tx_count)
  · rw [flow_rate, div_le_one (by exact_mod_cast hpos)]
    exact_mod_cast hle

/-- Stability of `orderedInsert` for a predicate compatible with the order. -/
theorem filter_orderedInsert {α : Type} (r : α → α → Prop) [DecidableRel r] (q : α → Bool)
    (a : α) (l : List α) (hq : ∀ x y, q x = true → q y = true → r x y) :
    (List.orderedInsert r a l).filter q =
      if q a then a :: l.filter q else l.filter q := by
  induction l with
  | nil => simp [List.orderedInsert, List.filter_cons]
  | cons b l ih =>
    rw [List.orderedInsert]
    split
    · simp [List.filter_cons]
    · rename_i hr
      rw [List.filter_cons, List.filter_cons]
      by_cases hqb : q b
      · by_cases hqa : q a
        · exact absurd (hq a b hqa hqb) hr
        · simp [hqa, hqb, ih]
      · simp [hqb, ih]

/-- Stability of `insertionSort`: elements satisfying a predicate compatible
with the sort order keep their relative positions. -/
theorem filter_insertionSort {α : Type} (r : α → α → Prop) [DecidableRel r] (q : α → Bool)
    (l : List α) (hq : ∀ x y, q x = true → q y = true → r x y) :
    (List.insertionSort r l).filter q = l.filter q := by
  induction l with
  | nil => rfl
  | cons a l ih =>
    rw [List.insertionSort, filter_orderedInsert r q a _ hq, List.filter_cons, ih]



theorem mem_edge_data_elim (tl : Ledger) (e : GraphEdge) (he : e ∈ edge_data tl) :
    ∃ k ∈ edge_keys tl, e = mkGraphEdge tl k := by
  rw [edge_data] at he
  rcases List.mem_map.mp he with ⟨k, hk, hke⟩
  exact ⟨k, hk, hke.symm⟩

theorem contains_eq_mem {α : Type} [BEq α] [LawfulBEq α] (l : List α) (a : α) :
    l.contains a = true ↔ a ∈ l := by
  simp [List.contains]

/-! ## Claims -/

/-- C1 (code bug): the spec says the particle sampler draws
`min(2000, |remainder|)` rows from the remainder and never raises, but line 184
requests `min(2000, len(transactions))` — capped by the FULL ledger size — so
`DataFrame.sample` raises `ValueError` whenever that exceeds the remainder.
On the concrete 3-row ledger with one high-intensity row the requested size is
3 while only 2 rows remain, and the particle view fails instead of emitting
`1 + min(2000, 2)` particles. -/
theorem c1_particle_sample_size_bug :
    normal_sample c1_ledger = Except.error "ValueError: a larger sample than population" ∧
    particle_data c1_ledger = Except.error "ValueError: a larger sample than population" ∧
    (high_intensity c1_ledger).length = 1 ∧
    (normal_pool c1_ledger).length = 2 ∧
    min 2000 c1_ledger.length = 3 ∧
    min 2000 (normal_pool c1_ledger).length = 2 := by
  decide

/-- C2 (counterexample): on a group where `wash_trade_ring` is encountered
first and ties `bot_activity` in frequency, the emitted modal label is
`bot_activity` — pandas `mode()[0]` resolves ties towards the
code-point-least label — while the spec prescribes the first-encountered
label `wash_trade_ring`. -/
theorem c2_mode_tie_counterexample :
    (edge_data c2_ledger).map (fun e => e.anomaly_type) = ["bot_activity"] ∧
    c2_labels = ["wash_trade_ring", "bot_activity"] ∧
    countOccur c2_labels "wash_trade_ring" = countOccur c2_labels "bot_activity" ∧
    modeFirstEncountered c2_labels = "wash_trade_ring" ∧
    ("bot_activity" : String) ≠ "wash_trade_ring" := by
  decide

/-- C2 (amended): for every non-empty (buyer, seller) edge group the emitted
`anomaly_type` is a modal (most frequent) label of the group, and a frequency
tie is resolved towards the code-point-least modal label (pandas `mode()[0]`
sorts the modes), not towards the first-encountered one. -/
theorem c2_edge_modal_label (tl : Ledger) :
    ∀ e ∈ edge_data tl,
      e.anomaly_type ∈ (edge_group tl (e.source, e.target)).map (fun t => t.anomaly_label) ∧
      countOccur ((edge_group tl (e.source, e.target)).map (fun t => t.anomaly_label))
          e.anomaly_type =
        maxCount ((edge_group tl (e.source, e.target)).map (fun t => t.anomaly_label)) ∧
      ∀ v ∈ (edge_group tl (e.source, e.target)).map (fun t => t.anomaly_label),
        countOccur ((edge_group tl (e.source, e.target)).map (fun t => t.anomaly_label)) v =
          maxCount ((edge_group tl (e.source, e.target)).map (fun t => t.anomaly_label)) →
        strLt v e.anomaly_type = false := by
  intro e he
  rcases mem_edge_data_elim tl e he with ⟨k, hk, hke⟩
  subst hke
  have hg : edge_group tl k ≠ [] :=
    group_ne_nil (network_txns tl) (fun t => (t.buyer_id, t.seller_id)) k hk
  have hL : (edge_group tl k).map (fun t => t.anomaly_label) ≠ [] := by
    intro hc
    exact hg (List.map_eq_nil_iff.mp hc)
  exact mode_head_spec ((edge_group tl k).map (fun t => t.anomaly_label)) hL

/-- C2 (witness): the amended theorem applied to the single edge of the
concrete two-row ledger. -/
theorem c2_edge_modal_label_witness :
    c2_e.anomaly_type ∈ (edge_group c2_ledger (c2_e.source, c2_e.target)).map
      (fun t => t.anomaly_label) := by
  have hm : c2_e ∈ edge_data c2_ledger := by
    have h : edge_data c2_ledger = [c2_e] := rfl
    rw [h]
    exact List.mem_singleton.mpr rfl
  exact (c2_edge_modal_label c2_ledger c2_e hm).1

/-- C3 (counterexample): on a ledger where the geographic flow view fails on
the unknown region `MARS` while the particle view succeeds, the run produces
only the views before the failure; the wash-ring, marketplace and stats views
are NOT produced, refuting that views are isolated units of failure. -/
theorem c3_view_isolation_counterexample :
    (flow_data c3_ledger).isOk = false ∧
    run_pipeline c3_ledger = ["network", "timeline", "particles"] ∧
    "wash_ring" ∉ run_pipeline c3_ledger ∧
    "marketplaces" ∉ run_pipeline c3_ledger ∧
    "stats" ∉ run_pipeline c3_ledger := by
  decide

/-- C3 (amended): the script is straight-line code with no exception handling,
so when the geographic flow view fails (and the particle view before it
succeeded) exactly the views preceding it — network, timeline, particles —
are produced, and every later view is lost. -/
theorem c3_failure_aborts_later_views (tl : Ledger)
    (hp : (particle_data tl).isOk = true) (hf : (flow_data tl).isOk = false) :
    run_pipeline tl = ["network", "timeline", "particles"] := by
  rw [run_pipeline, view_results]
  cases hp2 : particle_data tl with
  | error e =>
    rw [hp2] at hp
    simp [Except.isOk, Except.toBool] at hp
  | ok ps =>
    cases hf2 : flow_data tl with
    | ok fs =>
      rw [hf2] at hf
      simp [Except.isOk, Except.toBool] at hf
    | error e =>
      rfl

/-- C3 (witness): the amended theorem evaluated on the concrete ledger. -/
theorem c3_failure_aborts_witness :
    run_pipeline c3_ledger = ["network", "timeline", "particles"] :=
  c3_failure_aborts_later_views c3_ledger (by decide) (by decide)



/-- C4 (counterexample): the Marketplace Cluster Sampler iterates the FIXED
marketplace set, so on a ledger whose only row is on `Shadow` the entries for
`Prime` and `Arcade` are emitted (not omitted) with an undefined — NaN —
anomaly rate, refuting that empty groups are uniformly omitted or zeroed. -/
theorem c4_marketplace_nan_counterexample :
    (marketplace_data c4_ledger).map (fun es => es.map (fun m => (m.name, m.anomaly_rate.isSome))) =
      Except.ok [("Prime", false), ("Shadow", true), ("Arcade", false)] := by
  decide

/-- C4 (amended): no empty group ever raises; every view that groups by keys
observed in the ledger (timeline, anomaly breakdown, marketplace stats,
category stats) emits only defined means and rates; the marketplace cluster
view alone iterates a fixed set and emits an undefined (NaN) anomaly rate
exactly for the fixed marketplaces with zero transactions. -/
theorem c4_empty_group_policy (tl : Ledger) :
    (∀ b ∈ temporal_data tl, b.avg_price.isSome = true ∧ b.avg_z_score.isSome = true ∧
      ∀ d ∈ b.daily_counts, d.intensity.isSome = true) ∧
    (∀ a ∈ anomaly_breakdown tl, a.avg_price.isSome = true ∧ a.avg_z_score.isSome = true) ∧
    (∀ s ∈ stats_marketplaces tl, s.anomaly_rate.isSome = true) ∧
    (∀ p ∈ stats_categories tl, p.2.anomaly_rate.isSome = true) ∧
    (marketplace_data tl).isOk = true ∧
    (∀ es, marketplace_data tl = Except.ok es →
      ∀ m ∈ es, (m.anomaly_rate = none ↔ m.total_transactions = 0)) := by
  refine ⟨?_, ?_, ?_, ?_, ?_, ?_⟩
  · intro b hb
    rw [temporal_data] at hb
    rcases List.mem_map.mp hb with ⟨ty, hty, htb⟩
    have hg : type_group tl ty ≠ [] :=
      group_ne_nil (anomalies tl) (fun t => t.anomaly_label) ty hty
    rw [← htb]
    refine ⟨?_, ?_, ?_⟩
    · exact listMean_isSome _ (fun hc => hg (List.map_eq_nil_iff.mp hc))
    · exact listMean_isSome _ (fun hc => hg (List.map_eq_nil_iff.mp hc))
    · intro d hd
      simp only at hd
      rcases List.mem_map.mp hd with ⟨dy, hdy, hdb⟩
      have hdg : day_group (type_group tl ty) dy ≠ [] :=
        group_ne_nil (type_group tl ty) (fun t => t.timestamp.day) dy hdy
      rw [← hdb]
      exact listMean_isSome _ (fun hc => hdg (List.map_eq_nil_iff.mp hc))
  · intro a ha
    rw [anomaly_breakdown] at ha
    rcases List.mem_map.mp ha with ⟨ty, hty, hta⟩
    have hg : label_group tl ty ≠ [] := by
      rcases List.mem_map.mp ((mem_uniqueFirst ty _).mp hty) with ⟨t, ht, hte⟩
      apply List.ne_nil_of_mem
      rw [label_group, List.mem_filter]
      refine ⟨(List.mem_filter.mp ht).1, by simp [hte]⟩
    rw [← hta]
    constructor
    · exact listMean_isSome _ (fun hc => hg (List.map_eq_nil_iff.mp hc))
    · exact listMean_isSome _ (fun hc => hg (List.map_eq_nil_iff.mp hc))
  · intro s hs
    rw [stats_marketplaces] at hs
    rcases List.mem_map.mp hs with ⟨m, hm, hms⟩
    have hg : market_group tl m ≠ [] :=
      group_ne_nil tl (fun t => t.marketplace) m hm
    rw [← hms]
    exact listMean_isSome _ (fun hc => hg (List.map_eq_nil_iff.mp hc))
  · intro p hp
    rw [stats_categories] at hp
    rcases List.mem_map.mp hp with ⟨c, hc, hcp⟩
    have hg : cat_group tl c ≠ [] :=
      group_ne_nil tl (fun t => t.category) c hc
    rw [← hcp]
    exact listMean_isSome _ (fun hz => hg (List.map_eq_nil_iff.mp hz))
  · rcases marketplace_entries_ok tl marketplace_centers with ⟨es, hes, _⟩
    rw [marketplace_data, hes]
    rfl
  · intro es hes m hm
    rcases marketplace_entries_ok tl marketplace_centers with ⟨es2, hes2, hmem⟩
    rw [marketplace_data] at hes
    rw [hes] at hes2
    injection hes2 with he2
    rw [← he2] at hmem
    rcases hmem m hm with ⟨name, _, _, hr, ht⟩
    rw [hr, ht, market_anomaly_rate, listMean_eq_none_iff, List.map_eq_nil_iff,
      List.length_eq_zero]

/-- C4 (witness): the amended theorem applied to the first timeline bucket of
a concrete two-row ledger with one anomaly. -/
theorem c4_empty_group_policy_witness :
    (((temporal_data c4w_ledger).head (by decide)).avg_price).isSome = true :=
  (((c4_empty_group_policy c4w_ledger).1) _ (List.head_mem (by decide))).1

/-- C5 (confirmed): a flow group whose buyer or seller region is missing from
the fixed region table makes the whole geographic view fail (the `KeyError`
surfaces to the caller, nothing is silently defaulted), and in a successful
run every emitted flow carries exactly the table coordinates of its source and
target regions. -/
theorem c5_region_lookup_fails_or_exact (tl : Ledger) :
    ((∃ r ∈ flows tl, List.lookup r.buyer_region region_coords = none ∨
        List.lookup r.seller_region region_coords = none) →
      (flow_data tl).isOk = false) ∧
    ∀ fs, flow_data tl = Except.ok fs → ∀ f ∈ fs,
      List.lookup f.source region_coords = some f.source_coords ∧
      List.lookup f.target region_coords = some f.target_coords := by
  constructor
  · rintro ⟨r, hr, hl⟩
    cases hOk : (flow_data tl).isOk
    · rfl
    · exfalso
      have hall := (flow_rows_to_data_isOk (flows tl)).mp hOk
      rcases hl with hl | hl
      · have h2 := (hall r hr).1
        rw [hl] at h2
        simp at h2
      · have h2 := (hall r hr).2
        rw [hl] at h2
        simp at h2
  · intro fs hfs f hf
    rcases flow_rows_to_data_ok_mem (flows tl) fs hfs f hf with ⟨r, _, sc, tc, h1, h2, h3⟩
    rw [h3]
    exact ⟨h1, h2⟩

/-- C5 (witness): on the concrete ledger with the unknown region `ATLANTIS`
the geographic view fails. -/
theorem c5_region_lookup_witness : (flow_data c5_ledger).isOk = false :=
  (c5_region_lookup_fails_or_exact c5_ledger).1 (by decide)

/-- C6 (confirmed): the exported ring edge list is exactly the first 200 (in
ledger encounter order) of the transactions whose two endpoints are both in
the top-20 ring-user set — a prefix, not a ranked selection — and every
exported edge has both endpoints inside the ring-user set. -/
theorem c6_ring_induced_edge_list (tl : Ledger) :
    ring_export_edges tl =
      ((tl.filter (fun t => (ring_users tl).contains t.buyer_id &&
          (ring_users tl).contains t.seller_id)).map mkRingEdge).take 200 ∧
    (ring_export_edges tl).length = min 200 (ring_txns tl).length ∧
    ∀ e ∈ ring_export_edges tl, e.source ∈ ring_users tl ∧ e.target ∈ ring_users tl := by
  have hre : ring_edges tl = (ring_txns tl).map mkRingEdge := by
    rw [ring_edges]
    congr 1
    apply List.filter_eq_self.mpr
    intro t ht
    exact (List.mem_filter.mp ht).2
  refine ⟨?_, ?_, ?_⟩
  · rw [ring_export_edges, hre, ring_txns]
  · rw [ring_export_edges, List.length_take, hre, List.length_map]
  · intro e he
    have he2 : e ∈ ring_edges tl := List.mem_of_mem_take he
    rw [hre] at he2
    rcases List.mem_map.mp he2 with ⟨t, ht, hte⟩
    have hp := (List.mem_filter.mp ht).2
    rw [Bool.and_eq_true] at hp
    rw [← hte]
    exact ⟨(contains_eq_mem _ _).mp hp.1, (contains_eq_mem _ _).mp hp.2⟩

/-- C6 (witness): the first exported edge of the concrete wash-trade ledger
has both endpoints in the ring-user set. -/
theorem c6_ring_induced_witness :
    ((ring_export_edges c6_ledger).head (by decide)).source ∈ ring_users c6_ledger ∧
    ((ring_export_edges c6_ledger).head (by decide)).target ∈ ring_users c6_ledger :=
  (c6_ring_induced_edge_list c6_ledger).2.2 _ (List.head_mem (by decide))



/-- C7 (confirmed): the top-anomalies dashboard list is sorted by descending
absolute z-score with ties kept stably in ledger order, has exactly
`min(100, |anomalies|)` entries, equals all anomalies (as a multiset) when
there are at most 100, and together with the rows it drops partitions the
anomalies so that every dropped row has absolute z-score at most that of
every kept row — i.e. it is the 100 largest. -/
theorem c7_top_anomalies_spec (tl : Ledger) :
    List.Sorted absZDesc (top_anomalies tl) ∧
    (top_anomalies tl).length = min 100 (anomalies tl).length ∧
    ((anomalies tl).length ≤ 100 → (top_anomalies tl).Perm (anomalies tl)) ∧
    (∀ a ∈ top_anomalies tl, ∀ b ∈ (sorted_anomalies tl).drop 100,
      |b.price_z| ≤ |a.price_z|) ∧
    (top_anomalies tl ++ (sorted_anomalies tl).drop 100).Perm (anomalies tl) ∧
    ∀ k : ℚ, (sorted_anomalies tl).filter (fun t => |t.price_z| == k) =
      (anomalies tl).filter (fun t => |t.price_z| == k) := by
  have hsorted : List.Sorted absZDesc (sorted_anomalies tl) :=
    List.sorted_insertionSort absZDesc (anomalies tl)
  have hperm : (sorted_anomalies tl).Perm (anomalies tl) :=
    List.perm_insertionSort absZDesc (anomalies tl)
  refine ⟨?_, ?_, ?_, ?_, ?_, ?_⟩
  · exact List.Pairwise.sublist (List.take_sublist 100 (sorted_anomalies tl)) hsorted
  · rw [top_anomalies, List.length_take, hperm.length_eq]
  · intro hle
    rw [top_anomalies, List.take_of_length_le (by rw [hperm.length_eq]; exact hle)]
    exact hperm
  · intro a ha b hb
    exact pairwise_take_drop hsorted 100 a ha b hb
  · rw [top_anomalies, List.take_append_drop]
    exact hperm
  · intro k
    apply filter_insertionSort
    intro x y hx hy
    rw [beq_iff_eq] at hx hy
    show |y.price_z| ≤ |x.price_z|
    rw [hx, hy]

/-- C7 (witness): on a ledger with two anomalies the top list is a
permutation of all anomalies. -/
theorem c7_top_anomalies_witness : (top_anomalies c7_ledger).Perm (anomalies c7_ledger) :=
  (c7_top_anomalies_spec c7_ledger).2.2.1 (by decide)

/-- C8 (confirmed): the active set is exactly the union of the top-80 buyer
ids and top-80 seller ids by frequency (members of the kept frequency prefix
dominate every dropped entry), and each emitted node carries the transaction
count, anomaly count and unfiltered value sum over all transactions where the
user is buyer or seller. -/
theorem c8_active_set_and_node_stats (tl : Ledger) :
    (∀ u : String, u ∈ active_users tl ↔ (u ∈ top_buyers tl ∨ u ∈ top_sellers tl)) ∧
    (∀ p ∈ value_counts (tl.map (fun t => t.buyer_id)),
      p.2 = countOccur (tl.map (fun t => t.buyer_id)) p.1) ∧
    (∀ p ∈ (value_counts (tl.map (fun t => t.buyer_id))).take 80,
      ∀ q ∈ (value_counts (tl.map (fun t => t.buyer_id))).drop 80, q.2 ≤ p.2) ∧
    (∀ p ∈ (value_counts (tl.map (fun t => t.seller_id))).take 80,
      ∀ q ∈ (value_counts (tl.map (fun t => t.seller_id))).drop 80, q.2 ≤ p.2) ∧
    ((node_data tl).map (fun nd => nd.id) = active_users tl) ∧
    ∀ nd ∈ node_data tl,
      nd.tx_count = (tl.filter (involves nd.id)).length ∧
      nd.anomaly_count = ((tl.filter (involves nd.id)).filter is_anomaly).length ∧
      nd.total_value = ((tl.filter (involves nd.id)).map (fun t => t.price)).sum := by
  refine ⟨?_, ?_, ?_, ?_, ?_, ?_⟩
  · intro u
    rw [active_users, mem_uniqueFirst, List.mem_append]
  · intro p hp
    rw [value_counts] at hp
    have hp2 := (List.perm_insertionSort countDesc _).mem_iff.mp hp
    rcases List.mem_map.mp hp2 with ⟨v, _, hve⟩
    rw [← hve]
  · intro p hp q hq
    exact pairwise_take_drop (List.sorted_insertionSort countDesc _) 80 p hp q hq
  · intro p hp q hq
    exact pairwise_take_drop (List.sorted_insertionSort countDesc _) 80 p hp q hq
  · rw [node_data, List.map_map]
    have hco : ((fun nd : GraphNode => nd.id) ∘ mkGraphNode tl) = id := rfl
    rw [hco, List.map_id]
  · intro nd hnd
    rw [node_data] at hnd
    rcases List.mem_map.mp hnd with ⟨u, _, hue⟩
    rw [← hue]
    exact ⟨rfl, rfl, rfl⟩

/-- C8 (witness): the statistics of the first node of a concrete ledger. -/
theorem c8_active_set_witness :
    ((node_data c8_ledger).head (by decide)).tx_count =
      (c8_ledger.filter (involves ((node_data c8_ledger).head (by decide)).id)).length :=
  ((c8_active_set_and_node_stats c8_ledger).2.2.2.2.2 _ (List.head_mem (by decide))).1

/-- C9 (counterexample): on a ledger whose only row is on `Prime`, the
marketplace cluster view emits groups for `Shadow` and `Arcade` whose
`anomaly_rate` is NaN (undefined), which is not in the interval [0, 1],
refuting that every emitted anomaly rate lies in [0, 1]. -/
theorem c9_rate_unit_interval_counterexample :
    (marketplace_data c9_ledger).map (fun es => es.map (fun m => (m.name, m.anomaly_rate.isSome))) =
      Except.ok [("Prime", true), ("Shadow", false), ("Arcade", false)] := by
  decide

/-- C9 (amended): every DEFINED anomaly rate — flow rates (whose groups are
non-empty by construction), marketplace rates and category rates when the
group is non-empty — lies in [0, 1], and the three clamped intensity fields
(graph edge, particle, flow) lie in [0, 1]; only the NaN rate of an empty
fixed marketplace falls outside. -/
theorem c9_rates_and_intensities_bounded (tl : Ledger) :
    (∀ r ∈ flows tl, 0 ≤ flow_rate r ∧ flow_rate r ≤ 1) ∧
    (∀ fs, flow_data tl = Except.ok fs → ∀ f ∈ fs,
      0 ≤ f.anomaly_rate ∧ f.anomaly_rate ≤ 1 ∧ 0 ≤ f.intensity ∧ f.intensity ≤ 1) ∧
    (∀ e ∈ edge_data tl, 0 ≤ e.intensity ∧ e.intensity ≤ 1) ∧
    (∀ t : Txn, 0 ≤ (mkParticle t).intensity ∧ (mkParticle t).intensity ≤ 1) ∧
    (∀ m : String, ∀ x : ℚ, market_anomaly_rate tl m = some x → 0 ≤ x ∧ x ≤ 1) ∧
    (∀ c : String, ∀ x : ℚ, cat_anomaly_rate tl c = some x → 0 ≤ x ∧ x ≤ 1) := by
  refine ⟨?_, ?_, ?_, ?_, ?_, ?_⟩
  · intro r hr
    exact flow_rate_bounds tl r hr
  · intro fs hfs f hf
    rcases flow_rows_to_data_ok_mem (flows tl) fs hfs f hf with ⟨r, hr, sc, tc, _, _, h3⟩
    rcases flow_rate_bounds tl r hr with ⟨h0, h1⟩
    rw [h3]
    refine ⟨h0, h1, ?_, ?_⟩
    · exact (min_one_bounds (flow_rate r) h0).1
    · exact (min_one_bounds (flow_rate r) h0).2
  · intro e he
    rcases mem_edge_data_elim tl e he with ⟨k, _, hke⟩
    rw [hke]
    have h0 : 0 ≤ avgAbsZ (edge_group tl k) / 2 :=
      div_nonneg (avgAbsZ_nonneg (edge_group tl k)) (by norm_num)
    exact min_one_bounds _ h0
  · intro t
    have h0 : 0 ≤ |t.price_z| / 4 := div_nonneg (abs_nonneg t.price_z) (by norm_num)
    exact min_one_bounds _ h0
  · intro m x hm
    exact indicator_mean_bounds (market_group tl m) x hm
  · intro c x hc
    exact indicator_mean_bounds (cat_group tl c) x hc

/-- C9 (witness): the amended theorem applied to the single cross-region flow
row of a concrete ledger. -/
theorem c9_rates_bounded_witness :
    0 ≤ flow_rate ((flows c9w_ledger).head (by decide)) ∧
    flow_rate ((flows c9w_ledger).head (by decide)) ≤ 1 :=
  (c9_rates_and_intensities_bounded c9w_ledger).1 _ (List.head_mem (by decide))

/-- C10 (confirmed): the categories dashboard export is the very categories
section of the stats summary (line 483 aliases it), so the two agree on keys
and on every per-key total / anomalies / anomaly rate value. -/
theorem c10_categories_export_eq_stats (tl : Ledger) :
    categories_export tl = stats_categories tl ∧
    (categories_export tl).map Prod.fst = (stats_categories tl).map Prod.fst ∧
    ∀ c : String, List.lookup c (categories_export tl) = List.lookup c (stats_categories tl) :=
  ⟨rfl, rfl, fun _ => rfl⟩


end VEIA
